import Mathlib

/-!
Shallow embedding of the request-orchestration core of the LLM-REPORT-GEN
backend: the resource-transaction layer (src/backend/utils/transaction_utils.py),
the leaky-bucket admission controller (src/backend/rate_limiter.py), and the
query/upload paths of the orchestrator (src/backend/orchestrator.py).

Filesystem effects are made explicit: a filesystem state is the list of paths
that currently exist, and deletion failures (OS errors raised by unlink or
rmtree) are modelled by a parameter listing the paths whose removal raises.
-/

namespace Spec2Proof

/-- A filesystem state: the paths that currently exist. -/
abbrev FS := List String

/-- Embeds `self.file_path.exists()`: the path is present in the filesystem. -/
def pathExists (fs : FS) (p : String) : Bool := decide (p ∈ fs)

/-- Embeds `FileResource.__init__` (transaction_utils.py lines 29-37): a file
path together with the temporary-or-permanent flag. The flag is stored on the
resource; whether any later code reads it is a theorem, not an assumption. -/
structure FileResource where
  file_path : String
  is_temp : Bool
deriving DecidableEq

/-- Error message produced at transaction_utils.py line 56. -/
def cleanupErrMsg (p : String) : String := "Failed to clean up file: " ++ p

/-- Embeds `FileResource.cleanup` (transaction_utils.py lines 39-56): if the
path exists it is removed (unlink or rmtree — both simply make the path no
longer exist); an OS error during removal is re-raised as a CleanupError. If
the path does not exist, nothing happens and nothing is raised. The parameter
`failPaths` lists the paths whose removal raises an OS error. -/
def FileResource.cleanup (failPaths : List String) (r : FileResource) (fs : FS) :
    Except String FS :=
  if pathExists fs r.file_path then
    if decide (r.file_path ∈ failPaths) then
      Except.error (cleanupErrMsg r.file_path)
    else
      Except.ok (fs.filter (fun q => q != r.file_path))
  else
    Except.ok fs

/-- Embeds `Transaction.__init__` (transaction_utils.py lines 70-75): the
resource list starts empty and both terminal flags start false. The creation
time `started_at` (utcnow in the source) is a parameter, in hours. -/
structure Transaction where
  request_id : String
  resources : List FileResource
  started_at : ℚ
  completed : Bool
  failed : Bool
deriving DecidableEq

/-- Constructs a fresh transaction, as `Transaction(request_id)` does. -/
def Transaction.new (rid : String) (now : ℚ) : Transaction :=
  { request_id := rid, resources := [], started_at := now,
    completed := false, failed := false }

/-- Embeds `Transaction.register` (transaction_utils.py lines 77-84):
appends the resource to the list. -/
def Transaction.register (t : Transaction) (r : FileResource) : Transaction :=
  { t with resources := t.resources ++ [r] }

/-- Runs resource cleanups over a list of resources in the given order, as the
loop of `Transaction.cleanup` (transaction_utils.py lines 88-99) does: each
cleanup is attempted, an exception is caught and its message appended to the
error list, and the loop continues. Returns the final filesystem, the error
messages in the order collected, and the trace of the file paths whose cleanup
was invoked, in invocation order. -/
def cleanupRun (failPaths : List String) (rs : List FileResource) (fs : FS) :
    FS × List String × List String :=
  match rs with
  | [] => (fs, [], [])
  | r :: rest =>
    match r.cleanup failPaths fs with
    | Except.ok fs1 =>
      let out := cleanupRun failPaths rest fs1
      (out.1, out.2.1, r.file_path :: out.2.2)
    | Except.error e =>
      let out := cleanupRun failPaths rest fs
      (out.1, e :: out.2.1, r.file_path :: out.2.2)

/-- Embeds the join of the collected error messages with a semicolon-space
separator, as the f-string at transaction_utils.py line 102 does. -/
def joinSemicolon : List String → String
  | [] => ""
  | [e] => e
  | e :: rest => e ++ "; " ++ joinSemicolon rest

/-- The aggregate CleanupError message of transaction_utils.py line 102. -/
def aggregateMsg (errs : List String) : String :=
  "Cleanup errors occurred: " ++ joinSemicolon errs

/-- Embeds `Transaction.cleanup` (transaction_utils.py lines 86-102): iterates
the registered resources in reverse order, collects all individual failures,
and raises a single aggregate CleanupError if any failed. Returns the final
filesystem, the raised aggregate error (none if no failure), and the trace of
invoked cleanups in invocation order. -/
def Transaction.cleanup (failPaths : List String) (t : Transaction) (fs : FS) :
    FS × Option String × List String :=
  let out := cleanupRun failPaths t.resources.reverse fs
  (out.1, if out.2.1.isEmpty then none else some (aggregateMsg out.2.1), out.2.2)

/-- Embeds `Transaction.rollback` (transaction_utils.py lines 104-113): sets
`failed = True`, then runs cleanup, catching and logging any cleanup exception
(the exception is swallowed). -/
def Transaction.rollback (failPaths : List String) (t : Transaction) (fs : FS) :
    Transaction × FS × List String :=
  let t1 := { t with failed := true }
  let out := t1.cleanup failPaths fs
  (t1, out.1, out.2.2)

/-- Result of leaving the transaction scope: the transaction object, the
filesystem, the exception (if any) propagating out of the scope exit itself,
and the trace of invoked resource cleanups. -/
structure ExitResult where
  txn : Transaction
  fs : FS
  raisedOut : Option String
  trace : List String
deriving DecidableEq

/-- Embeds `Transaction.__exit__` (transaction_utils.py lines 122-139): if the
block raised, `rollback()` runs (its cleanup errors are swallowed inside
rollback, so nothing new propagates); otherwise `cleanup()` runs and then
`completed = True` is assigned. Note the order in the source: when `cleanup()`
raises on the normal path, the assignment `self.completed = True` on line 131
is never reached and the CleanupError propagates out of the context manager to
the caller. -/
def Transaction.exitScope (failPaths : List String) (t : Transaction) (fs : FS)
    (raised : Bool) : ExitResult :=
  if raised then
    let out := t.rollback failPaths fs
    { txn := out.1, fs := out.2.1, raisedOut := none, trace := out.2.2 }
  else
    let out := t.cleanup failPaths fs
    match out.2.1 with
    | none =>
      { txn := { t with completed := true }, fs := out.1,
        raisedOut := none, trace := out.2.2 }
    | some e =>
      { txn := t, fs := out.1, raisedOut := some e, trace := out.2.2 }

/-- Embeds `TransactionManager.__init__` (transaction_utils.py lines 146-148):
the maximum age (a timedelta of `max_age_hours` hours; all times here are in
hours) and the map of active transactions. A Python dict preserves insertion
order, so the map is a list of pairs with distinct keys. -/
structure TransactionManager where
  max_age : ℚ
  active_transactions : List (String × Transaction)
deriving DecidableEq

/-- Constructs a fresh manager, as `TransactionManager(max_age_hours)` does. -/
def TransactionManager.new (max_age_hours : ℚ) : TransactionManager :=
  { max_age := max_age_hours, active_transactions := [] }

/-- Embeds `TransactionManager.start_transaction` (transaction_utils.py lines
150-157): raises on a duplicate request id, otherwise creates a transaction
and stores it in the active map. -/
def TransactionManager.start_transaction (m : TransactionManager) (rid : String)
    (now : ℚ) : Except String (TransactionManager × Transaction) :=
  if (m.active_transactions.lookup rid).isSome then
    Except.error ("Transaction " ++ rid ++ " already exists")
  else
    let t := Transaction.new rid now
    Except.ok ({ m with active_transactions := m.active_transactions ++ [(rid, t)] }, t)

/-- The manager map stores a reference to the transaction object, so a
mutation of the transaction (registering resources, leaving the scope) is
visible through the map. The embedding makes this aliasing explicit: the entry
for the request id is replaced by the current state of the transaction. -/
def TransactionManager.updateEntry (m : TransactionManager) (rid : String)
    (t : Transaction) : TransactionManager :=
  { m with active_transactions :=
      m.active_transactions.map (fun p => if p.1 == rid then (rid, t) else p) }

/-- Runs the loop of `cleanup_old_transactions` (transaction_utils.py lines
167-179) over the snapshot list of old transactions: each old transaction has
its `cleanup()` invoked; on success the entry is deleted from the active map,
on an exception the entry is kept (the error is logged). Returns the final
active map, the filesystem, and the concatenated trace of invoked resource
cleanups. -/
def sweepRun (failPaths : List String) (old : List (String × Transaction))
    (active : List (String × Transaction)) (fs : FS) :
    List (String × Transaction) × FS × List String :=
  match old with
  | [] => (active, fs, [])
  | (rid, txn) :: rest =>
    let out := txn.cleanup failPaths fs
    match out.2.1 with
    | none =>
      let r := sweepRun failPaths rest (active.filter (fun p => p.1 != rid)) out.1
      (r.1, r.2.1, out.2.2 ++ r.2.2)
    | some _ =>
      let r := sweepRun failPaths rest active out.1
      (r.1, r.2.1, out.2.2 ++ r.2.2)

/-- Embeds `TransactionManager.cleanup_old_transactions` (transaction_utils.py
lines 159-179): selects the active transactions older than `max_age` (strict
comparison `now - txn.started_at > self.max_age`), then force-cleans each,
deleting it from the active map when its cleanup raised no error. -/
def TransactionManager.cleanup_old_transactions (failPaths : List String)
    (m : TransactionManager) (now : ℚ) (fs : FS) :
    TransactionManager × FS × List String :=
  let old := m.active_transactions.filter
    (fun p => decide (now - p.2.started_at > m.max_age))
  let r := sweepRun failPaths old m.active_transactions fs
  ({ m with active_transactions := r.1 }, r.2.1, r.2.2)

/-- Embeds `EnhancedRateLimiter.__init__` (rate_limiter.py lines 14-21):
capacity (an int in the source signature, kept as a rational for the float
comparison `self.water < self.capacity`), leak rate per second, the water
level starting at 0.0, the wait queue (a deque of pending futures, identified
here by numbers) and its bound. Elapsed wall-clock times since the last check
are passed as explicit parameters. -/
structure EnhancedRateLimiter where
  capacity : ℚ
  leak_rate : ℚ
  water : ℚ
  queue : List Nat
  max_queue_size : Nat
deriving DecidableEq

/-- Constructs a fresh limiter, as `EnhancedRateLimiter(...)` does. -/
def EnhancedRateLimiter.new (capacity : ℚ) (leak_rate_per_sec : ℚ)
    (max_queue_size : Nat) : EnhancedRateLimiter :=
  { capacity := capacity, leak_rate := leak_rate_per_sec, water := 0,
    queue := [], max_queue_size := max_queue_size }

/-- Embeds `EnhancedRateLimiter.allow_request` (rate_limiter.py lines 23-38):
under the lock, the water level is recomputed as
`max(0.0, water - elapsed * leak_rate)`; if the recomputed level is strictly
below capacity it is incremented by 1 and the request is admitted, otherwise
the request is rejected. Returns the decision and the new state. -/
def EnhancedRateLimiter.allow_request (l : EnhancedRateLimiter) (elapsed : ℚ) :
    Bool × EnhancedRateLimiter :=
  let w := max 0 (l.water - elapsed * l.leak_rate)
  if w < l.capacity then (true, { l with water := w + 1 })
  else (false, { l with water := w })

/-- The three possible synchronous outcomes of `allow_request_with_queue`
before any awaiting happens: admitted immediately, rejected because the queue
is full, or enqueued as a waiter. -/
inductive QueueDecision where
  | admitted
  | rejectedFull
  | enqueued
deriving DecidableEq

/-- Embeds the synchronous part of `EnhancedRateLimiter.allow_request_with_queue`
(rate_limiter.py lines 40-57): first try `allow_request`; on failure, if the
queue already holds at least `max_queue_size` entries, return False at once
without enqueuing; otherwise append a fresh future (identified by `fid`) to
the queue and become a waiter. -/
def EnhancedRateLimiter.allow_request_with_queue (l : EnhancedRateLimiter)
    (elapsed : ℚ) (fid : Nat) : QueueDecision × EnhancedRateLimiter :=
  match l.allow_request elapsed with
  | (true, l1) => (QueueDecision.admitted, l1)
  | (false, l1) =>
    if l1.queue.length ≥ l1.max_queue_size then (QueueDecision.rejectedFull, l1)
    else (QueueDecision.enqueued, { l1 with queue := l1.queue ++ [fid] })

/-- Embeds one iteration of the body of `EnhancedRateLimiter.process_queue`
(rate_limiter.py lines 75-92), after the sleep: if the queue is empty nothing
happens; otherwise, under the lock, the water level is recomputed the same way
as in `allow_request`, and if it is strictly below capacity and the queue is
non-empty, the water is incremented and the head waiter is popped and resolved.
Returns the new state and the resolved waiter, if any. -/
def EnhancedRateLimiter.process_queue_step (l : EnhancedRateLimiter)
    (elapsed : ℚ) : EnhancedRateLimiter × Option Nat :=
  if l.queue.isEmpty then (l, none)
  else
    let w := max 0 (l.water - elapsed * l.leak_rate)
    if w < l.capacity then
      match l.queue with
      | [] => ({ l with water := w }, none)
      | fid :: rest => ({ l with water := w + 1, queue := rest }, some fid)
    else
      ({ l with water := w }, none)

/-- Embeds the timeout path of `allow_request_with_queue` (rate_limiter.py
lines 63-68): on `asyncio.TimeoutError` the future is removed from the queue
if still there. -/
def EnhancedRateLimiter.timeout_remove (l : EnhancedRateLimiter) (fid : Nat) :
    EnhancedRateLimiter :=
  { l with queue := l.queue.erase fid }

/-- An admission-controller operation: an immediate admission attempt, the
synchronous part of a queued admission attempt, one drain-loop iteration, or a
waiter timing out. -/
inductive RLOp where
  | immediate (elapsed : ℚ)
  | withQueue (elapsed : ℚ) (fid : Nat)
  | drain (elapsed : ℚ)
  | timedOut (fid : Nat)
deriving DecidableEq

/-- Applies one admission-controller operation to the limiter state. -/
def stepRL (l : EnhancedRateLimiter) : RLOp → EnhancedRateLimiter
  | RLOp.immediate e => (l.allow_request e).2
  | RLOp.withQueue e fid => (l.allow_request_with_queue e fid).2
  | RLOp.drain e => (l.process_queue_step e).1
  | RLOp.timedOut fid => l.timeout_remove fid

/-- Applies a sequence of admission-controller operations. -/
def runOps (l : EnhancedRateLimiter) (ops : List RLOp) : EnhancedRateLimiter :=
  ops.foldl stepRL l

/-- Runs a sequence of immediate admission attempts, one per elapsed time, and
collects the decisions in order together with the final state. -/
def admitRun (l : EnhancedRateLimiter) : List ℚ → List Bool × EnhancedRateLimiter
  | [] => ([], l)
  | e :: rest =>
    let out := l.allow_request e
    let r := admitRun out.2 rest
    (out.1 :: r.1, r.2)

/-- Embeds `RequestContext.__init__` (orchestrator.py lines 32-36): it sets
`request_id`, `start_time` and `service_timings` and nothing else; in
particular it does not set a `csv_content` attribute, and no statement
anywhere in the repository assigns one, so the attribute is absent (`none`)
on every context the registry can hold. -/
structure RequestContext where
  request_id : String
  csv_content : Option String
deriving DecidableEq

/-- A context as produced by `Orchestrator.create_request_context`
(orchestrator.py lines 84-90): fresh, with no `csv_content` attribute. -/
def RequestContext.create (rid : String) : RequestContext :=
  { request_id := rid, csv_content := none }

/-- Outcome of the query workflow: an HTTPException with a status code and
detail, or a successful response carrying the LLM text. -/
inductive QueryOutcome where
  | httpError (status : Nat) (detail : String)
  | success (response : String)
deriving DecidableEq

/-- The prompt built at orchestrator.py lines 261-267 from the CSV content and
the user query. -/
def queryPrompt (csv query : String) : String :=
  "Here is a CSV file content:\n\n" ++ csv ++ "\n\nQuestion: " ++ query ++
  "\n\nPlease analyze the CSV data to answer this question. Include any " ++
  "relevant statistics, patterns, or insights you find. If appropriate, " ++
  "suggest visualizations that could help illustrate the answer."

/-- Embeds the decision path of `Orchestrator.handle_query` (orchestrator.py
lines 244-305): if the request id is not in the context registry, or the
context has no `csv_content` attribute, an HTTPException with status 400 is
raised (line 256); only otherwise is the prompt built and sent to the LLM
collaborator (modelled as the function `llm` from prompt to response text),
whose text becomes the `response` field of the QueryResponse. -/
def handle_query (contexts : List (String × RequestContext))
    (llm : String → String) (query : String) (request_id : String) :
    QueryOutcome :=
  match contexts.lookup request_id with
  | none =>
    QueryOutcome.httpError 400 "No CSV data found. Please upload a CSV file first."
  | some ctx =>
    match ctx.csv_content with
    | none =>
      QueryOutcome.httpError 400 "No CSV data found. Please upload a CSV file first."
    | some csv => QueryOutcome.success (llm (queryPrompt csv query))

/-- Embeds the registration step of `Orchestrator.handle_file_upload`
(orchestrator.py line 103): the path returned by the upload service is
registered in the transaction as a non-temporary file resource,
`FileResource(upload_result.path, is_temp=False)`. -/
def uploadRegisterSavedFile (t : Transaction) (path : String) : Transaction :=
  t.register { file_path := path, is_temp := false }

/-! Helper lemmas about the cleanup loop. -/

theorem cleanupRun_trace (failPaths : List String) (rs : List FileResource) (fs : FS) :
    (cleanupRun failPaths rs fs).2.2 = rs.map FileResource.file_path := by
  induction rs generalizing fs with
  | nil => rfl
  | cons r rest ih =>
    unfold cleanupRun
    cases h : r.cleanup failPaths fs with
    | ok fs1 => simp [ih]
    | error e => simp [ih]

theorem pathExists_filter_ne (fs : FS) (p q : String) (h : p ≠ q) :
    pathExists (fs.filter (fun x => x != q)) p = pathExists fs p := by
  simp [pathExists, List.mem_filter, h]

theorem cleanupRun_errors (failPaths : List String) (rs : List FileResource) (fs : FS)
    (h : (rs.map FileResource.file_path).Nodup) :
    (cleanupRun failPaths rs fs).2.1 =
      (rs.filter (fun r =>
        pathExists fs r.file_path && decide (r.file_path ∈ failPaths))).map
        (fun r => cleanupErrMsg r.file_path) := by
  induction rs generalizing fs with
  | nil => rfl
  | cons r rest ih =>
    have hpair : (r.file_path ∉ rest.map FileResource.file_path) ∧
        (rest.map FileResource.file_path).Nodup := by
      simpa using h
    have hne : ∀ r2 ∈ rest, r2.file_path ≠ r.file_path := by
      intro r2 hr2 heq
      exact hpair.1 (heq ▸ List.mem_map_of_mem FileResource.file_path hr2)
    unfold cleanupRun
    by_cases hex : pathExists fs r.file_path
    · by_cases hfail : r.file_path ∈ failPaths
      · have hcl : r.cleanup failPaths fs = Except.error (cleanupErrMsg r.file_path) := by
          simp [FileResource.cleanup, hex, hfail]
        simp [hcl, hex, hfail, ih fs hpair.2]
      · have hcl : r.cleanup failPaths fs =
            Except.ok (fs.filter (fun q => q != r.file_path)) := by
          simp [FileResource.cleanup, hex, hfail]
        have hcongr : rest.filter (fun r2 =>
              pathExists (fs.filter (fun q => q != r.file_path)) r2.file_path &&
              decide (r2.file_path ∈ failPaths)) =
            rest.filter (fun r2 =>
              pathExists fs r2.file_path && decide (r2.file_path ∈ failPaths)) := by
          apply List.filter_congr
          intro r2 hr2
          rw [pathExists_filter_ne fs r2.file_path r.file_path (hne r2 hr2)]
        simp [hcl, hex, hfail, ih _ hpair.2, hcongr]
    · have hcl : r.cleanup failPaths fs = Except.ok fs := by
        simp [FileResource.cleanup, hex]
      simp [hcl, hex, ih fs hpair.2]

theorem cleanupRun_absent (failPaths : List String) (rs : List FileResource) (fs : FS)
    (h : ∀ r ∈ rs, pathExists fs r.file_path = false) :
    cleanupRun failPaths rs fs = (fs, [], rs.map FileResource.file_path) := by
  induction rs with
  | nil => rfl
  | cons r rest ih =>
    have hr : pathExists fs r.file_path = false := h r (List.mem_cons_self r rest)
    have hcl : r.cleanup failPaths fs = Except.ok fs := by
      simp [FileResource.cleanup, hr]
    have ih2 := ih (fun r2 hr2 => h r2 (List.mem_cons_of_mem r hr2))
    unfold cleanupRun
    simp [hcl, ih2]

/-- C4. For every Transaction, any failure-injection environment, any
filesystem and either exit path (block raised or returned normally), the
sequence of resource cleanups invoked during the scoped exit is exactly the
registered resources in reverse registration order: each is invoked exactly
once, last registered first. -/
theorem transaction_cleanup_reverse_order (failPaths : List String)
    (t : Transaction) (fs : FS) (raised : Bool) :
    (Transaction.exitScope failPaths t fs raised).trace =
      (t.resources.map FileResource.file_path).reverse := by
  have key : (cleanupRun failPaths t.resources.reverse fs).2.2 =
      (t.resources.map FileResource.file_path).reverse := by
    rw [cleanupRun_trace, List.map_reverse]
  cases raised with
  | true =>
    unfold Transaction.exitScope Transaction.rollback Transaction.cleanup
    simpa using key
  | false =>
    unfold Transaction.exitScope Transaction.cleanup
    cases herr : (cleanupRun failPaths t.resources.reverse fs).2.1 with
    | nil => simpa [herr] using key
    | cons e es => simpa [herr] using key

/-- C10. FileResource cleanup on an absent path returns normally and deletes
nothing, and a cleanup that returned normally is a silent no-op when invoked
again on the filesystem it produced: the second invocation changes nothing
and raises nothing. -/
theorem fileResource_cleanup_noop_idempotent :
    (∀ (failPaths : List String) (r : FileResource) (fs : FS),
      pathExists fs r.file_path = false → r.cleanup failPaths fs = Except.ok fs) ∧
    (∀ (failPaths : List String) (r : FileResource) (fs fs1 : FS),
      r.cleanup failPaths fs = Except.ok fs1 → r.cleanup failPaths fs1 = Except.ok fs1) := by
  constructor
  · intro failPaths r fs h
    simp [FileResource.cleanup, h]
  · intro failPaths r fs fs1 h
    by_cases hex : pathExists fs r.file_path
    · by_cases hfail : r.file_path ∈ failPaths
      · simp [FileResource.cleanup, hex, hfail] at h
      · have hfs1 : fs1 = fs.filter (fun q => q != r.file_path) := by
          simp [FileResource.cleanup, hex, hfail] at h
          exact h.symm
        have habs : pathExists fs1 r.file_path = false := by
          subst hfs1
          simp [pathExists, List.mem_filter]
        simp [FileResource.cleanup, habs]
    · have hfs1 : fs1 = fs := by
        simp [FileResource.cleanup, hex] at h
        exact h.symm
      subst hfs1
      simp [FileResource.cleanup, hex]

/-- Witness for C10 at a concrete input: path "g" exists and its removal
succeeds, so the first cleanup deletes it and the second is a no-op; path
"absent" does not exist, so cleanup returns the filesystem unchanged. -/
theorem fileResource_cleanup_noop_idempotent_witness :
    (FileResource.cleanup [] ⟨"absent", true⟩ ["g"] = Except.ok ["g"]) ∧
    (FileResource.cleanup [] ⟨"g", true⟩ [] = Except.ok []) :=
  ⟨fileResource_cleanup_noop_idempotent.1 [] ⟨"absent", true⟩ ["g"] (by decide),
   fileResource_cleanup_noop_idempotent.2 [] ⟨"g", true⟩ ["g"] []
     (by simp [FileResource.cleanup, pathExists])⟩

/-- C8. For every Transaction whose registered resource paths are pairwise
distinct, cleanup attempts every resource in reverse registration order
(so a failing resource never stops the earlier-registered ones), and the
single raised aggregate CleanupError is exactly the aggregate of every
individual failure, raised precisely when at least one cleanup failed. -/
theorem transaction_cleanup_aggregates_failures (failPaths : List String)
    (t : Transaction) (fs : FS)
    (hnd : (t.resources.map FileResource.file_path).Nodup) :
    (Transaction.cleanup failPaths t fs).2.2 =
      (t.resources.map FileResource.file_path).reverse ∧
    (Transaction.cleanup failPaths t fs).2.1 =
      (let errs := (t.resources.reverse.filter (fun r =>
          pathExists fs r.file_path && decide (r.file_path ∈ failPaths))).map
          (fun r => cleanupErrMsg r.file_path)
       if errs.isEmpty then none else some (aggregateMsg errs)) := by
  have hnd2 : (t.resources.reverse.map FileResource.file_path).Nodup := by
    rw [List.map_reverse]
    exact List.nodup_reverse.mpr hnd
  have h1 := cleanupRun_trace failPaths t.resources.reverse fs
  have h2 := cleanupRun_errors failPaths t.resources.reverse fs hnd2
  constructor
  · show (cleanupRun failPaths t.resources.reverse fs).2.2 = _
    rw [h1, List.map_reverse]
  · show (if (cleanupRun failPaths t.resources.reverse fs).2.1.isEmpty then none
        else some (aggregateMsg (cleanupRun failPaths t.resources.reverse fs).2.1)) = _
    rw [h2]

/-- Witness for C8 at a concrete input: two resources registered in order
"a" then "b", both present on disk, removal of "b" raises. Cleanup runs in
reverse order ("b" first, then "a" still proceeds) and raises the aggregate
error listing the one failure. -/
theorem transaction_cleanup_aggregates_failures_witness :
    (Transaction.cleanup ["b"]
        (((Transaction.new "r" 0).register ⟨"a", true⟩).register ⟨"b", true⟩)
        ["a", "b"]).2.2 = ["b", "a"] ∧
    (Transaction.cleanup ["b"]
        (((Transaction.new "r" 0).register ⟨"a", true⟩).register ⟨"b", true⟩)
        ["a", "b"]).2.1 = some (aggregateMsg [cleanupErrMsg "b"]) := by
  have h := transaction_cleanup_aggregates_failures ["b"]
    (((Transaction.new "r" 0).register ⟨"a", true⟩).register ⟨"b", true⟩)
    ["a", "b"] (by decide)
  refine ⟨?_, ?_⟩
  · rw [h.1]; rfl
  · rw [h.2]; rfl

/-- C1. Code evidence at the failing input: in a successfully completing
upload workflow, the saved file is registered as a non-temporary resource
(is_temp = false), the block returns normally, the scoped exit marks the
transaction completed and raises nothing — and the normal-lifecycle cleanup
nonetheless deletes the saved file, because FileResource.cleanup never
consults is_temp. -/
theorem upload_nontemp_file_deleted_on_success :
    ((uploadRegisterSavedFile (Transaction.new "req-1" 0) "uploads/data.csv").resources.map
        FileResource.is_temp) = [false] ∧
    (Transaction.exitScope []
        (uploadRegisterSavedFile (Transaction.new "req-1" 0) "uploads/data.csv")
        ["uploads/data.csv"] false).txn.completed = true ∧
    (Transaction.exitScope []
        (uploadRegisterSavedFile (Transaction.new "req-1" 0) "uploads/data.csv")
        ["uploads/data.csv"] false).raisedOut = none ∧
    pathExists (Transaction.exitScope []
        (uploadRegisterSavedFile (Transaction.new "req-1" 0) "uploads/data.csv")
        ["uploads/data.csv"] false).fs "uploads/data.csv" = false := by
  decide

/-- C2 counterexample. A transaction that registered one resource whose
removal raises, with the wrapped block returning normally: the claim says the
transaction is still marked completed and the caller still observes success,
but in the code the CleanupError raised by cleanup() on line 130 prevents the
assignment on line 131, so completed stays false (no terminal flag is set)
and the CleanupError propagates out of the scope to the caller. -/
theorem exit_cleanup_error_overrides_success_cex :
    (Transaction.exitScope ["f"] ((Transaction.new "r" 0).register ⟨"f", true⟩)
        ["f"] false).txn.completed = false ∧
    (Transaction.exitScope ["f"] ((Transaction.new "r" 0).register ⟨"f", true⟩)
        ["f"] false).txn.failed = false ∧
    (Transaction.exitScope ["f"] ((Transaction.new "r" 0).register ⟨"f", true⟩)
        ["f"] false).raisedOut = some (aggregateMsg [cleanupErrMsg "f"]) := by
  decide

/-- C2 as amended. For a fresh transaction (no terminal flag set), the scoped
exit behaves as follows: if the block raised, rollback marks it failed and any
cleanup failure is swallowed (nothing new propagates, the failure outcome is
not overwritten); if the block returned normally and cleanup raised nothing,
it is marked completed; but if cleanup raises on the normal path, neither
terminal flag is set and the CleanupError propagates to the caller. -/
theorem exitScope_primary_outcomes (failPaths : List String) (t : Transaction)
    (fs : FS) (raised : Bool) (hc : t.completed = false) (hf : t.failed = false) :
    (raised = true →
      (Transaction.exitScope failPaths t fs raised).txn.failed = true ∧
      (Transaction.exitScope failPaths t fs raised).txn.completed = false ∧
      (Transaction.exitScope failPaths t fs raised).raisedOut = none) ∧
    (raised = false →
      ((Transaction.exitScope failPaths t fs raised).raisedOut = none →
        (Transaction.exitScope failPaths t fs raised).txn.completed = true ∧
        (Transaction.exitScope failPaths t fs raised).txn.failed = false) ∧
      ((Transaction.exitScope failPaths t fs raised).raisedOut ≠ none →
        (Transaction.exitScope failPaths t fs raised).txn.completed = false ∧
        (Transaction.exitScope failPaths t fs raised).txn.failed = false)) := by
  cases raised with
  | true =>
    refine ⟨fun _ => ?_, fun h => by simp at h⟩
    unfold Transaction.exitScope Transaction.rollback
    simpa using hc
  | false =>
    refine ⟨fun h => by simp at h, fun _ => ?_⟩
    unfold Transaction.exitScope
    cases herr : (Transaction.cleanup failPaths t fs).2.1 with
    | none => exact ⟨fun _ => by simp [herr, hf], fun hne => by simp [herr] at hne⟩
    | some e => exact ⟨fun hnone => by simp [herr] at hnone, fun _ => by simp [herr, hc, hf]⟩

/-- Witness for C2 as amended, on both normal-path branches and the rollback
branch at concrete inputs. -/
theorem exitScope_primary_outcomes_witness :
    (Transaction.exitScope [] (Transaction.new "w" 0) [] false).txn.completed = true ∧
    (Transaction.exitScope ["f"] ((Transaction.new "w" 0).register ⟨"f", true⟩)
        ["f"] false).txn.completed = false ∧
    (Transaction.exitScope [] (Transaction.new "w" 0) [] true).txn.failed = true := by
  refine ⟨?_, ?_, ?_⟩
  · exact ((exitScope_primary_outcomes [] (Transaction.new "w" 0) [] false rfl rfl).2
      rfl).1 (by decide) |>.1
  · exact ((exitScope_primary_outcomes ["f"]
      ((Transaction.new "w" 0).register ⟨"f", true⟩) ["f"] false rfl rfl).2
      rfl).2 (by decide) |>.1
  · exact ((exitScope_primary_outcomes [] (Transaction.new "w" 0) [] true rfl rfl).1
      rfl).1

/-- C3. Code evidence at the failing input: request contexts created by
create_request_context carry no csv_content attribute, and for every context
registry, every LLM collaborator, every query and every request id whose
registered context lacks csv_content, handle_query raises HTTPException 400
("No CSV data found") — it never builds the prompt and never calls the LLM,
regardless of how many documents have been ingested (the query path never
consults them). -/
theorem handle_query_always_400 :
    (∀ rid : String, (RequestContext.create rid).csv_content = none) ∧
    (∀ (contexts : List (String × RequestContext)) (llm : String → String)
      (query rid : String) (ctx : RequestContext),
      contexts.lookup rid = some ctx → ctx.csv_content = none →
      handle_query contexts llm query rid =
        QueryOutcome.httpError 400
          "No CSV data found. Please upload a CSV file first.") := by
  constructor
  · intro rid; rfl
  · intro contexts llm query rid ctx hlook hnone
    unfold handle_query
    rw [hlook]
    simp [hnone]

/-- Witness for C3 at a concrete input: one context freshly created for
request id "r1", an LLM that would answer "ok", query "total sales?". The
outcome is the 400 error, not the LLM text. -/
theorem handle_query_always_400_witness :
    handle_query [("r1", RequestContext.create "r1")] (fun _ => "ok")
      "total sales?" "r1" =
      QueryOutcome.httpError 400
        "No CSV data found. Please upload a CSV file first." :=
  handle_query_always_400.2 [("r1", RequestContext.create "r1")] (fun _ => "ok")
    "total sales?" "r1" (RequestContext.create "r1") (by decide) rfl

/-- C5. allow_request first recomputes the water level by subtracting
elapsed * leak_rate floored at zero, then admits exactly when the recomputed
level is strictly below capacity (incrementing it by 1 on admission); and in
the concrete scenario capacity = 30, leak_rate = 5, starting empty: 30
zero-elapsed calls are all admitted, the 31st is rejected, and after 1 second
exactly 5 further calls are admitted (the 6th is rejected). -/
theorem allow_request_leak_floor_admit_scenario :
    (∀ (l : EnhancedRateLimiter) (e : ℚ),
      ((l.allow_request e).1 = true ↔
        max 0 (l.water - e * l.leak_rate) < l.capacity)) ∧
    (∀ (l : EnhancedRateLimiter) (e : ℚ),
      ((l.allow_request e).2).water =
        (if max 0 (l.water - e * l.leak_rate) < l.capacity
         then max 0 (l.water - e * l.leak_rate) + 1
         else max 0 (l.water - e * l.leak_rate))) ∧
    (admitRun (EnhancedRateLimiter.new 30 5 20) (List.replicate 30 0)).1 =
      List.replicate 30 true ∧
    ((admitRun (EnhancedRateLimiter.new 30 5 20)
        (List.replicate 30 0)).2.allow_request 0).1 = false ∧
    (admitRun ((admitRun (EnhancedRateLimiter.new 30 5 20)
        (List.replicate 31 0)).2) [1, 0, 0, 0, 0]).1 =
      [true, true, true, true, true] ∧
    ((admitRun ((admitRun (EnhancedRateLimiter.new 30 5 20)
        (List.replicate 31 0)).2) [1, 0, 0, 0, 0]).2.allow_request 0).1 = false := by
  refine ⟨?_, ?_, ?_, ?_, ?_, ?_⟩
  · intro l e
    unfold EnhancedRateLimiter.allow_request
    by_cases h : max 0 (l.water - e * l.leak_rate) < l.capacity <;> simp [h]
  · intro l e
    unfold EnhancedRateLimiter.allow_request
    by_cases h : max 0 (l.water - e * l.leak_rate) < l.capacity <;> simp [h]
  · norm_num [admitRun, EnhancedRateLimiter.new, EnhancedRateLimiter.allow_request,
      List.replicate]
  · norm_num [admitRun, EnhancedRateLimiter.new, EnhancedRateLimiter.allow_request,
      List.replicate]
  · norm_num [admitRun, EnhancedRateLimiter.new, EnhancedRateLimiter.allow_request,
      List.replicate]
  · norm_num [admitRun, EnhancedRateLimiter.new, EnhancedRateLimiter.allow_request,
      List.replicate]

/-- C6 counterexample. With capacity = 1 and leak_rate = 1, starting empty:
the first zero-elapsed call is admitted (water 1). A second call half a
second later recomputes water = 1/2 < 1 and is admitted, leaving water = 3/2,
which strictly exceeds the capacity 1: immediately after an admit the water
level can exceed capacity. -/
theorem water_exceeds_capacity_after_admit_cex :
    (((EnhancedRateLimiter.new 1 1 20).allow_request 0).2.allow_request
        (1 / 2)).1 = true ∧
    (((EnhancedRateLimiter.new 1 1 20).allow_request 0).2.allow_request
        (1 / 2)).2.water > (EnhancedRateLimiter.new 1 1 20).capacity := by
  constructor
  · norm_num [EnhancedRateLimiter.new, EnhancedRateLimiter.allow_request]
  · norm_num [EnhancedRateLimiter.new, EnhancedRateLimiter.allow_request]

theorem allow_request_water_nonneg (l : EnhancedRateLimiter) (e : ℚ) :
    0 ≤ ((l.allow_request e).2).water := by
  unfold EnhancedRateLimiter.allow_request
  have hm : (0 : ℚ) ≤ max 0 (l.water - e * l.leak_rate) := le_max_left 0 _
  by_cases h : max 0 (l.water - e * l.leak_rate) < l.capacity
  · simp [h]
    try linarith
  · simp [h]
    try linarith

theorem allow_request_with_queue_water (l : EnhancedRateLimiter) (e : ℚ) (fid : Nat) :
    ((l.allow_request_with_queue e fid).2).water = ((l.allow_request e).2).water := by
  unfold EnhancedRateLimiter.allow_request_with_queue
  cases h : l.allow_request e with
  | mk b l1 =>
    cases b with
    | true => rfl
    | false =>
      by_cases hq : l1.queue.length ≥ l1.max_queue_size <;> simp [hq]

theorem process_queue_step_water_nonneg (l : EnhancedRateLimiter) (e : ℚ)
    (h : 0 ≤ l.water) : 0 ≤ ((l.process_queue_step e).1).water := by
  unfold EnhancedRateLimiter.process_queue_step
  have hm : (0 : ℚ) ≤ max 0 (l.water - e * l.leak_rate) := le_max_left 0 _
  by_cases hq : l.queue.isEmpty
  · simpa [hq] using h
  · by_cases hlt : max 0 (l.water - e * l.leak_rate) < l.capacity
    · cases hqq : l.queue with
      | nil => simp [hqq] at hq
      | cons fid rest =>
        simp [hq, hlt, hqq]
        linarith
    · simp [hq, hlt]
      try linarith

theorem water_nonneg_step (l : EnhancedRateLimiter) (op : RLOp)
    (h : 0 ≤ l.water) : 0 ≤ (stepRL l op).water := by
  cases op with
  | immediate e => exact allow_request_water_nonneg l e
  | withQueue e fid =>
    show 0 ≤ ((l.allow_request_with_queue e fid).2).water
    rw [allow_request_with_queue_water]
    exact allow_request_water_nonneg l e
  | drain e => exact process_queue_step_water_nonneg l e h
  | timedOut fid => exact h

theorem runOps_water_nonneg (l : EnhancedRateLimiter) (ops : List RLOp)
    (h : 0 ≤ l.water) : 0 ≤ (runOps l ops).water := by
  induction ops generalizing l with
  | nil => exact h
  | cons op rest ih => exact ih (stepRL l op) (water_nonneg_step l op h)

/-- C6 as amended. From a freshly constructed limiter, over every sequence of
admission-controller operations the water level never goes negative; and
immediately after any admit (immediate or by the drain loop) the water level
is strictly below capacity + 1 — the admission test bounds the pre-increment
level strictly below capacity, so the post-admit level can exceed capacity by
a fractional amount but never reaches capacity + 1. -/
theorem water_invariants_amended :
    (∀ (c r : ℚ) (m : Nat) (ops : List RLOp),
      0 ≤ (runOps (EnhancedRateLimiter.new c r m) ops).water) ∧
    (∀ (l : EnhancedRateLimiter) (e : ℚ), (l.allow_request e).1 = true →
      ((l.allow_request e).2).water < l.capacity + 1) ∧
    (∀ (l : EnhancedRateLimiter) (e : ℚ), ((l.process_queue_step e).2).isSome →
      ((l.process_queue_step e).1).water < l.capacity + 1) := by
  refine ⟨?_, ?_, ?_⟩
  · intro c r m ops
    exact runOps_water_nonneg _ ops (by simp [EnhancedRateLimiter.new])
  · intro l e hadm
    unfold EnhancedRateLimiter.allow_request at hadm ⊢
    by_cases h : max 0 (l.water - e * l.leak_rate) < l.capacity
    · simp [h]
      try linarith
    · simp [h] at hadm
  · intro l e hsome
    unfold EnhancedRateLimiter.process_queue_step at hsome ⊢
    by_cases hq : l.queue.isEmpty
    · simp [hq] at hsome
    · by_cases hlt : max 0 (l.water - e * l.leak_rate) < l.capacity
      · cases hqq : l.queue with
        | nil => simp [hqq] at hq
        | cons fid rest =>
          simp [hq, hlt, hqq]
          try linarith
      · simp [hq, hlt] at hsome

/-- Witness for C6 as amended at concrete inputs: the empty operation
sequence from a fresh limiter, an admitted immediate call, and a drain-loop
step that resolves the head waiter. -/
theorem water_invariants_amended_witness :
    0 ≤ (runOps (EnhancedRateLimiter.new 1 1 20) []).water ∧
    ((EnhancedRateLimiter.new 1 1 20).allow_request 0).2.water <
      (EnhancedRateLimiter.new 1 1 20).capacity + 1 ∧
    ((EnhancedRateLimiter.mk 1 1 0 [5] 20).process_queue_step 0).1.water <
      (EnhancedRateLimiter.mk 1 1 0 [5] 20).capacity + 1 := by
  refine ⟨water_invariants_amended.1 1 1 20 [], ?_, ?_⟩
  · exact water_invariants_amended.2.1 (EnhancedRateLimiter.new 1 1 20) 0
      (by norm_num [EnhancedRateLimiter.new, EnhancedRateLimiter.allow_request])
  · exact water_invariants_amended.2.2 (EnhancedRateLimiter.mk 1 1 0 [5] 20) 0
      (by norm_num [EnhancedRateLimiter.process_queue_step])

theorem allow_request_queue_inv (l : EnhancedRateLimiter) (e : ℚ) :
    ((l.allow_request e).2).queue = l.queue ∧
    ((l.allow_request e).2).max_queue_size = l.max_queue_size := by
  unfold EnhancedRateLimiter.allow_request
  by_cases h : max 0 (l.water - e * l.leak_rate) < l.capacity
  · simp [h]
  · simp [h]

theorem stepRL_max_queue_size (l : EnhancedRateLimiter) (op : RLOp) :
    (stepRL l op).max_queue_size = l.max_queue_size := by
  cases op with
  | immediate e => exact (allow_request_queue_inv l e).2
  | withQueue e fid =>
    show ((l.allow_request_with_queue e fid).2).max_queue_size = _
    unfold EnhancedRateLimiter.allow_request_with_queue
    cases hh : l.allow_request e with
    | mk b l1 =>
      have h1 : l1.max_queue_size = l.max_queue_size := by
        have h2 := (allow_request_queue_inv l e).2
        rw [hh] at h2
        exact h2
      cases b with
      | true => simpa using h1
      | false =>
        by_cases hq : l1.queue.length ≥ l1.max_queue_size
        · simpa [hq] using h1
        · simpa [hq] using h1
  | drain e =>
    show ((l.process_queue_step e).1).max_queue_size = _
    unfold EnhancedRateLimiter.process_queue_step
    by_cases hq : l.queue.isEmpty
    · simp [hq]
    · by_cases hlt : max 0 (l.water - e * l.leak_rate) < l.capacity
      · cases hqq : l.queue with
        | nil => simp [hqq] at hq
        | cons fid rest => simp [hq, hlt, hqq]
      · simp [hq, hlt]
  | timedOut fid => rfl

theorem stepRL_queue_len (l : EnhancedRateLimiter) (op : RLOp)
    (h : l.queue.length ≤ l.max_queue_size) :
    (stepRL l op).queue.length ≤ l.max_queue_size := by
  cases op with
  | immediate e =>
    show ((l.allow_request e).2).queue.length ≤ _
    rw [(allow_request_queue_inv l e).1]
    exact h
  | withQueue e fid =>
    show ((l.allow_request_with_queue e fid).2).queue.length ≤ _
    unfold EnhancedRateLimiter.allow_request_with_queue
    cases hh : l.allow_request e with
    | mk b l1 =>
      have h1q : l1.queue = l.queue := by
        have h2 := (allow_request_queue_inv l e).1
        rw [hh] at h2
        exact h2
      have h1m : l1.max_queue_size = l.max_queue_size := by
        have h2 := (allow_request_queue_inv l e).2
        rw [hh] at h2
        exact h2
      cases b with
      | true => simpa [h1q] using h
      | false =>
        by_cases hq : l1.queue.length ≥ l1.max_queue_size
        · have hq2 : l1.max_queue_size ≤ l.queue.length := h1q ▸ hq
          simpa [hq2, h1q] using h
        · have hlt : l1.queue.length < l.max_queue_size := by
            rw [← h1m]
            exact lt_of_not_ge hq
          simp [hq, List.length_append]
          omega
  | drain e =>
    show ((l.process_queue_step e).1).queue.length ≤ _
    unfold EnhancedRateLimiter.process_queue_step
    by_cases hq : l.queue.isEmpty
    · simpa [hq] using h
    · by_cases hlt : max 0 (l.water - e * l.leak_rate) < l.capacity
      · cases hqq : l.queue with
        | nil => simp [hqq] at hq
        | cons fid rest =>
          have hlen := h
          rw [hqq] at hlen
          simp [hq, hlt, hqq]
          simp at hlen
          omega
      · simpa [hq, hlt] using h
  | timedOut fid =>
    show (l.queue.erase fid).length ≤ _
    exact le_trans (List.length_erase_le fid l.queue) h

theorem runOps_queue_len (l : EnhancedRateLimiter) (ops : List RLOp)
    (h : l.queue.length ≤ l.max_queue_size) :
    (runOps l ops).queue.length ≤ (runOps l ops).max_queue_size := by
  induction ops generalizing l with
  | nil => exact h
  | cons op rest ih =>
    have hstep : (stepRL l op).queue.length ≤ (stepRL l op).max_queue_size := by
      rw [stepRL_max_queue_size]
      exact stepRL_queue_len l op h
    exact ih (stepRL l op) hstep

theorem runOps_max_queue_size (l : EnhancedRateLimiter) (ops : List RLOp) :
    (runOps l ops).max_queue_size = l.max_queue_size := by
  induction ops generalizing l with
  | nil => rfl
  | cons op rest ih =>
    show (runOps (stepRL l op) rest).max_queue_size = _
    rw [ih (stepRL l op), stepRL_max_queue_size]

/-- C7. A queued admission attempt that fails immediate admission while the
wait queue already holds max_queue_size entries returns the queue-full
rejection at once and leaves the queue unchanged (no waiter enqueued); and
from a freshly constructed limiter, over every sequence of
admission-controller operations the queue length never exceeds
max_queue_size. -/
theorem queue_full_reject_and_bound :
    (∀ (l : EnhancedRateLimiter) (e : ℚ) (fid : Nat),
      (l.allow_request e).1 = false →
      l.queue.length = l.max_queue_size →
      (l.allow_request_with_queue e fid).1 = QueueDecision.rejectedFull ∧
      ((l.allow_request_with_queue e fid).2).queue = l.queue) ∧
    (∀ (c r : ℚ) (m : Nat) (ops : List RLOp),
      (runOps (EnhancedRateLimiter.new c r m) ops).queue.length ≤ m) := by
  constructor
  · intro l e fid hfail hfull
    unfold EnhancedRateLimiter.allow_request_with_queue
    cases hh : l.allow_request e with
    | mk b l1 =>
      have hb : b = false := by
        rw [hh] at hfail
        exact hfail
      subst hb
      have h1q : l1.queue = l.queue := by
        have h2 := (allow_request_queue_inv l e).1
        rw [hh] at h2
        exact h2
      have h1m : l1.max_queue_size = l.max_queue_size := by
        have h2 := (allow_request_queue_inv l e).2
        rw [hh] at h2
        exact h2
      have hge : l1.max_queue_size ≤ l.queue.length := by
        rw [h1m, hfull]
      simp [hge, h1q]
  · intro c r m ops
    have h0 : (EnhancedRateLimiter.new c r m).queue.length ≤
        (EnhancedRateLimiter.new c r m).max_queue_size := by
      simp [EnhancedRateLimiter.new]
    have hb := runOps_queue_len (EnhancedRateLimiter.new c r m) ops h0
    rw [runOps_max_queue_size] at hb
    exact hb

/-- Witness for C7 at concrete inputs: a limiter with capacity 0 and queue
bound 0 rejects a queued attempt at once with the queue (empty, and full at
its bound 0) unchanged; and a one-operation sequence from a fresh limiter
with bound 2 keeps the queue within the bound. -/
theorem queue_full_reject_and_bound_witness :
    ((EnhancedRateLimiter.new 0 5 0).allow_request_with_queue 0 7).1 =
      QueueDecision.rejectedFull ∧
    (runOps (EnhancedRateLimiter.new 1 1 2) [RLOp.withQueue 0 1]).queue.length ≤ 2 := by
  constructor
  · exact (queue_full_reject_and_bound.1 (EnhancedRateLimiter.new 0 5 0) 0 7
      (by norm_num [EnhancedRateLimiter.new, EnhancedRateLimiter.allow_request]) rfl).1
  · exact queue_full_reject_and_bound.2 1 1 2 [RLOp.withQueue 0 1]

/-- C9 counterexample. A transaction started through the manager registers a
file resource and exits its scope successfully: the resource is cleaned (its
path deleted, trace ["f.txt"], nothing raised). The scope exit never removes
the completed transaction from the manager map, so a later sweep (here 25
hours after the start, past the 24-hour max age) selects it and invokes the
resource cleanup a second time: the sweep trace contains "f.txt" again,
refuting the claim that a successfully cleaned resource is not invoked a
second time by a subsequent sweep. -/
theorem sweep_reinvokes_cleaned_resource_cex :
    ((TransactionManager.new 24).start_transaction "r1" 0 =
      Except.ok (⟨24, [("r1", Transaction.new "r1" 0)]⟩, Transaction.new "r1" 0)) ∧
    (Transaction.exitScope [] ((Transaction.new "r1" 0).register ⟨"f.txt", true⟩)
        ["f.txt"] false).trace = ["f.txt"] ∧
    (Transaction.exitScope [] ((Transaction.new "r1" 0).register ⟨"f.txt", true⟩)
        ["f.txt"] false).raisedOut = none ∧
    (Transaction.exitScope [] ((Transaction.new "r1" 0).register ⟨"f.txt", true⟩)
        ["f.txt"] false).txn.completed = true ∧
    (TransactionManager.cleanup_old_transactions []
        ((⟨24, [("r1", Transaction.new "r1" 0)]⟩ : TransactionManager).updateEntry "r1"
          (Transaction.exitScope [] ((Transaction.new "r1" 0).register ⟨"f.txt", true⟩)
            ["f.txt"] false).txn)
        25
        (Transaction.exitScope [] ((Transaction.new "r1" 0).register ⟨"f.txt", true⟩)
          ["f.txt"] false).fs).2.2 = ["f.txt"] := by
  refine ⟨by rfl, by decide, by decide, by decide, ?_⟩
  norm_num [TransactionManager.cleanup_old_transactions, TransactionManager.updateEntry,
    sweepRun, Transaction.cleanup, Transaction.exitScope, cleanupRun,
    FileResource.cleanup, pathExists, Transaction.register, Transaction.new]

/-- C9 as amended. A completed transaction stays in the manager map, so a
sweep of transactions older than max_age does invoke the cleanup of its
already-cleaned resources a second time; but since every resource path was
already deleted, the second invocation is a no-op: it deletes nothing, raises
nothing, and the sweep then removes the transaction from the active set. -/
theorem sweep_after_successful_exit_noop (failPaths : List String) (rid : String)
    (t : Transaction) (fs : FS) (now mage : ℚ)
    (habs : ∀ r ∈ t.resources, pathExists fs r.file_path = false)
    (hold : now - t.started_at > mage) :
    (TransactionManager.cleanup_old_transactions failPaths
        ⟨mage, [(rid, t)]⟩ now fs).2.2 =
      (t.resources.map FileResource.file_path).reverse ∧
    (TransactionManager.cleanup_old_transactions failPaths
        ⟨mage, [(rid, t)]⟩ now fs).2.1 = fs ∧
    (TransactionManager.cleanup_old_transactions failPaths
        ⟨mage, [(rid, t)]⟩ now fs).1.active_transactions = [] := by
  have habs2 : ∀ r ∈ t.resources.reverse, pathExists fs r.file_path = false := by
    intro r hr
    exact habs r (List.mem_reverse.mp hr)
  have hrun := cleanupRun_absent failPaths t.resources.reverse fs habs2
  have hclean : Transaction.cleanup failPaths t fs =
      (fs, none, (t.resources.map FileResource.file_path).reverse) := by
    unfold Transaction.cleanup
    rw [hrun]
    simp [List.map_reverse]
  have hsweep : sweepRun failPaths [(rid, t)] [(rid, t)] fs =
      ([], fs, (t.resources.map FileResource.file_path).reverse) := by
    unfold sweepRun
    rw [hclean]
    simp [sweepRun]
  unfold TransactionManager.cleanup_old_transactions
  have hfilter : ([(rid, t)] : List (String × Transaction)).filter
      (fun p => decide (now - p.2.started_at > mage)) = [(rid, t)] := by
    simp [hold]
  simp only [hfilter, hsweep]
  exact ⟨trivial, trivial, trivial⟩

/-- Witness for C9 as amended at a concrete input: a completed transaction
holding one resource whose path is already gone, swept 25 hours after a start
at hour 0 with a 24-hour max age. -/
theorem sweep_after_successful_exit_noop_witness :
    (TransactionManager.cleanup_old_transactions [] ⟨24,
        [("r1", Transaction.mk "r1" [⟨"f.txt", true⟩] 0 true false)]⟩ 25 []).2.2 =
      ["f.txt"] ∧
    (TransactionManager.cleanup_old_transactions [] ⟨24,
        [("r1", Transaction.mk "r1" [⟨"f.txt", true⟩] 0 true false)]⟩ 25 []).2.1 = [] ∧
    (TransactionManager.cleanup_old_transactions [] ⟨24,
        [("r1", Transaction.mk "r1" [⟨"f.txt", true⟩] 0 true false)]⟩
        25 []).1.active_transactions = [] :=
  sweep_after_successful_exit_noop [] "r1"
    (Transaction.mk "r1" [⟨"f.txt", true⟩] 0 true false) [] 25 24
    (by decide) (by norm_num)

end Spec2Proof
